import Mathlib

/-!
# Verification of the pptoas per-observation TOA-extraction pipeline

Shallow embedding of the control and numerical-bookkeeping logic of
`pptoas.py` (PulsePortraiture): fit-mask selection, Doppler correction,
TOA computation, archive-level DM aggregation, covariance remapping,
the channel-zapping evaluator, the archive-count guard, TOA-flag
assembly, the command-line guard, and the narrowband initial-guess
block.  Machine floats are modelled as rationals; the external fit
engine, archive loader and FFT/phase-shift routines are treated as
opaque inputs, exactly as the spec scopes them.
-/

namespace PPtoas

/-! ## Fit-mask selection (pptoas.py, `GetTOAs.get_TOAs`)

Lines 227-238 build the base mask `self.fit_flags` from the global
options; lines 519-529 apply the per-subintegration channel-count
overrides.  The local variable `fit_flags` is assigned only inside
those three branches, so in the two-channel branch the statement
`fit_flags[2] = 0` reads whatever value the local held after the
*previous* subintegration (it raises UnboundLocalError if no previous
subintegration assigned it). -/

/-- `self.nfit` (pptoas.py lines 227-231): running count of requested fit
parameters.  Note the source decrements for `fix_alpha` even when
`fit_scat` is false. -/
def nfit_of (fit_DM fit_GM fit_scat fix_alpha : Bool) : Nat :=
  (1 + (if fit_DM then 1 else 0) + (if fit_GM then 1 else 0) +
   (if fit_scat then 2 else 0)) - (if fix_alpha then 1 else 0)

/-- `self.fit_flags` (pptoas.py lines 232-238): `[phi, DM, GM, tau, alpha]`
as 0/1 integers; `fit_phi` is always 1, `fit_tau = fit_scat`, and
`fit_alpha` is `not fix_alpha` when `fit_scat` else `fit_scat` itself. -/
def fit_param_flags (fit_DM fit_GM fit_scat fix_alpha : Bool) : List Nat :=
  [1, if fit_DM then 1 else 0, if fit_GM then 1 else 0,
   if fit_scat then 1 else 0, if fit_scat && !fix_alpha then 1 else 0]

/-- Per-subintegration fit-mask selection (pptoas.py lines 519-529).
`nchx` is `len(freqsx)`, the number of good channels; `prev` is the value
the local `fit_flags` holds from the previous subintegration (`none`
before any assignment).  The two-channel branch mutates that stale
value in place (`fit_flags[2] = 0`); reading it unassigned raises
UnboundLocalError, modelled as an error value. -/
def select_fit_flags (fit_DM fit_GM : Bool) (base : List Nat) (nchx : Nat)
    (prev : Option (List Nat)) : Except String (List Nat) :=
  if nchx = 1 then
    Except.ok [1, 0, 0, 0, 0]
  else if nchx = 2 ∧ fit_DM ∧ fit_GM then
    match prev with
    | none => Except.error "UnboundLocalError: fit_flags referenced before assignment"
    | some fl => Except.ok (fl.set 2 0)
  else
    Except.ok base

/-- The sequence of fit masks produced for consecutive subintegrations
whose good-channel counts are `nchxs`, threading the stale local through
the loop; an UnboundLocalError aborts the loop (uncaught in the source). -/
def fit_flags_trace (fit_DM fit_GM : Bool) (base : List Nat) :
    List Nat → Option (List Nat) → List (Except String (List Nat))
  | [], _ => []
  | nchx :: rest, prev =>
    match select_fit_flags fit_DM fit_GM base nchx prev with
    | Except.ok fl => Except.ok fl :: fit_flags_trace fit_DM fit_GM base rest (some fl)
    | Except.error e => [Except.error e]

/-! ## Doppler correction (pptoas.py lines 583-593) -/

/-- Doppler correction of the fitted DM and GM (pptoas.py lines 583-593):
in barycentric mode the fitted DM is multiplied by the Doppler factor
when the DM flag of the final fit mask is set, and the fitted GM by the
cube of the Doppler factor when the GM flag is set; otherwise both pass
through unchanged. -/
def doppler_correct_DM_GM (bary : Bool) (fit_flags : List Nat)
    (df DM GM : ℚ) : ℚ × ℚ :=
  if bary then
    ((if fit_flags.getD 1 0 ≠ 0 then DM * df else DM),
     (if fit_flags.getD 2 0 ≠ 0 then GM * df ^ 3 else GM))
  else
    (DM, GM)

/-! ## TOA computation (pptoas.py lines 570-575)

`epoch` (the subintegration midpoint, in days), the spin period `P` and
the backend delay in seconds.  `results.TOA = epoch + ((phi * P) +
backend_delay) / (3600 * 24.)` and `results.TOA_err = phi_err * P * 1e6`
(microseconds). -/

/-- Absolute epoch-of-arrival (pptoas.py lines 572-574). -/
def calc_TOA (epoch phi P backend_delay : ℚ) : ℚ :=
  epoch + ((phi * P) + backend_delay) / (3600 * 24)

/-- TOA uncertainty in microseconds (pptoas.py line 575). -/
def calc_TOA_err (phi_err P : ℚ) : ℚ :=
  phi_err * P * 1000000

/-! ## Archive-count guard (pptoas.py lines 33, 103-110) -/

/-- `max_nfile` (pptoas.py line 33): hard ceiling on archives per run. -/
def max_nfile : Nat := 999

/-- `GetTOAs.__init__` datafile handling (pptoas.py lines 103-110): the
expanded datafile list is checked against `max_nfile` before anything
else happens; exceeding it prints a diagnostic and calls `sys.exit()`,
modelled as an error value carrying the diagnostic.  On success the
constructor retains the list for later processing (no archive is loaded
in the constructor). -/
def GetTOAs_init (datafiles : List String) : Except String (List String) :=
  if datafiles.length > max_nfile then
    Except.error "Too many archives.  See/change max_nfile(=999) in pptoas.py."
  else
    Except.ok datafiles

/-! ## Command-line guard (pptoas.py lines 1583-1587)

`parser.exit()` is optparse `OptionParser.exit(status=0, msg=None)`,
which calls `sys.exit(0)`: the process exit status is zero. -/

/-- The `__main__` required-argument guard (pptoas.py lines 1583-1587):
returns `some (printed_help, exit_status)` when a required file argument
is missing (the program prints the banner and the usage text, then calls
`parser.exit()`, whose default status is 0), and `none` when execution
continues past the guard. -/
def main_required_files_guard (datafiles modelfile : Option String) :
    Option (Bool × Nat) :=
  if datafiles.isNone ∨ modelfile.isNone then some (true, 0) else none

/-! ## Archive-level DM aggregation (pptoas.py lines 713-729)

After all subintegrations of an archive are processed:
`DeltaDMs = DMs - DM0`; the weights are `DM_errs[ok_isubs]**-2` when
`np.all(DM_errs[ok_isubs])` (all nonzero) else `np.ones`;
`np.average(..., returned=True)` yields the weighted mean and the sum of
weights; the variance starts as the inverse weight sum and, when more
than one good subintegration exists, is multiplied by the empirical
reduced chi-square of the residuals.  The lists below are already
restricted to the good subintegrations (`d.ok_isubs`). -/

/-- `DM_weights` (pptoas.py lines 717-720). -/
def DM_weights (errs : List ℚ) : List ℚ :=
  if errs.all (fun e => decide (e ≠ 0)) then errs.map (fun e => (e ^ 2)⁻¹)
  else List.replicate errs.length 1

/-- `DeltaDM_mean` and `DeltaDM_var` (pptoas.py lines 713-728): the
weighted mean of DM - DM0 over the good subintegrations and its
(possibly chi-square-inflated) variance. -/
def DeltaDM_aggregate (DMs : List ℚ) (DM0 : ℚ) (errs : List ℚ) : ℚ × ℚ :=
  let DeltaDMs := DMs.map (fun x => x - DM0)
  let ws := DM_weights errs
  let mean := (List.zipWith (fun v w => v * w) DeltaDMs ws).sum / ws.sum
  let var0 := (ws.sum)⁻¹
  let var :=
    if 1 < DMs.length then
      var0 * ((List.zipWith (fun d w => (d - mean) ^ 2 * w) DeltaDMs ws).sum /
        ((DMs.length : ℚ) - 1))
    else var0
  (mean, var)

/-- The weight of subintegration `i` in the words of the spec:
the inverse-square DM uncertainty when every uncertainty is nonzero,
else uniform. -/
def spec_DM_weight (errs : List ℚ) (i : Nat) : ℚ :=
  if ∀ j, j < errs.length → errs.getD j 0 ≠ 0 then ((errs.getD i 0) ^ 2)⁻¹ else 1

/-- A list sum as a sum over its index range. -/
lemma list_sum_eq_range_sum (l : List ℚ) :
    l.sum = ∑ i in Finset.range l.length, l.getD i 0 := by
  induction l with
  | nil => simp
  | cons a t ih =>
    rw [List.length_cons, Finset.sum_range_succ']
    simp [List.getD_cons_succ, List.getD_cons_zero, ih, add_comm]

/-- Sum of an elementwise combination of two equal-length lists as a sum
over the index range. -/
lemma zipWith_sum_range (f : ℚ → ℚ → ℚ) (l1 l2 : List ℚ)
    (h : l2.length = l1.length) :
    (List.zipWith f l1 l2).sum =
      ∑ i in Finset.range l1.length, f (l1.getD i 0) (l2.getD i 0) := by
  induction l1 generalizing l2 with
  | nil => simp
  | cons a t ih =>
    cases l2 with
    | nil => simp at h
    | cons b s =>
      rw [List.zipWith_cons_cons, List.sum_cons, List.length_cons,
        Finset.sum_range_succ']
      simp only [List.getD_cons_succ, List.getD_cons_zero]
      rw [ih s (by simpa using h), add_comm]

/-- The `np.all` truthiness test matches the spec-side quantifier. -/
lemma DM_weights_all_iff (errs : List ℚ) :
    errs.all (fun e => decide (e ≠ 0)) = true ↔
      ∀ j, j < errs.length → errs.getD j 0 ≠ 0 := by
  rw [List.all_eq_true]
  constructor
  · intro hall j hj
    rw [List.getD_eq_getElem _ _ hj]
    simpa using hall _ (List.getElem_mem hj)
  · intro hj x hx
    rcases List.mem_iff_getElem.mp hx with ⟨j, hlt, rfl⟩
    simpa using (List.getD_eq_getElem errs 0 hlt ▸ hj j hlt)

/-- `DM_weights` has the length of its input. -/
lemma DM_weights_length (errs : List ℚ) : (DM_weights errs).length = errs.length := by
  unfold DM_weights
  split <;> simp

/-- In range, `DM_weights` agrees pointwise with the spec-side weight. -/
lemma DM_weights_getD (errs : List ℚ) (i : Nat) (hi : i < errs.length) :
    (DM_weights errs).getD i 0 = spec_DM_weight errs i := by
  unfold DM_weights spec_DM_weight
  rcases hb : errs.all (fun e => decide (e ≠ 0)) with _ | _
  · have : ¬ ∀ j, j < errs.length → errs.getD j 0 ≠ 0 := by
      rw [← DM_weights_all_iff, hb]; simp
    rw [if_neg (by simp [hb]), if_neg this,
      List.getD_eq_getElem _ _ (by simpa using hi), List.getElem_replicate]
  · have : ∀ j, j < errs.length → errs.getD j 0 ≠ 0 := (DM_weights_all_iff errs).mp hb
    rw [if_pos (by simp [hb]), if_pos this,
      List.getD_eq_getElem _ _ (by simpa using hi), List.getElem_map,
      List.getD_eq_getElem _ _ hi]

/-- `getD` through the `DeltaDMs` map, inside the index range. -/
lemma getD_map_sub (DMs : List ℚ) (DM0 : ℚ) (i : Nat) (h : i < DMs.length) :
    (DMs.map (fun x => x - DM0)).getD i 0 = DMs.getD i 0 - DM0 := by
  rw [List.getD_eq_getElem _ _ (by simpa using h), List.getElem_map,
    List.getD_eq_getElem _ _ h]

/-! ## Covariance-matrix unpacking (pptoas.py lines 346-347 and 645-651)

The archive-level slot is `covariances = np.zeros([nsub, self.nfit,
self.nfit])` — its dimension is `self.nfit`, the number of parameters
requested by the global options, not a fixed 5.  Per subintegration,
`covariances[isub] = results.covariance_matrix` succeeds when the matrix
matches the slot, silently broadcasts a 1x1 matrix across the whole
slot (numpy assignment broadcasting), and raises ValueError otherwise;
the ValueError handler remaps element (ii, jj) of the reduced matrix to
the slot entry at the positions of the ii-th and jj-th free parameters,
`np.where(fit_flags)[0]`. -/

/-- `np.where(fit_flags)[0]`: the positions of the free parameters. -/
def freeIndices (mask : List Nat) : List Nat :=
  (List.range mask.length).filter (fun i => decide (mask.getD i 0 ≠ 0))

/-- One element assignment `covariances[isub][ifit, jfit] = v` on the
slot viewed as a function of its two indices. -/
def write_entry (M : Nat → Nat → ℚ) (r c : Nat) (v : ℚ) : Nat → Nat → ℚ :=
  fun i j => if i = r ∧ j = c then v else M i j

/-- Inner remap loop (pptoas.py lines 649-651): write the reduced-row
values into row `ifit` of the slot at their paired column positions. -/
def remap_row (ifit : Nat) : List (Nat × ℚ) → (Nat → Nat → ℚ) → Nat → Nat → ℚ
  | [], M => M
  | q :: t, M => remap_row ifit t (write_entry M ifit q.1 q.2)

/-- Outer remap loop: one `remap_row` per (row position, reduced row). -/
def remap_rows (freeIdx : List Nat) :
    List (Nat × List ℚ) → (Nat → Nat → ℚ) → Nat → Nat → ℚ
  | [], M => M
  | p :: t, M => remap_rows freeIdx t (remap_row p.1 (freeIdx.zip p.2) M)

/-- The ValueError handler (pptoas.py lines 648-651): the double loop
`for ii, ifit in enumerate(np.where(fit_flags)[0])` over
`results.covariance_matrix[ii, jj]`, with `enumerate` plus subscripting
rendered as zips of the free-index list with the reduced rows. -/
def remap_covariance (freeIdx : List Nat) (cov : List (List ℚ))
    (M : Nat → Nat → ℚ) : Nat → Nat → ℚ :=
  remap_rows freeIdx (freeIdx.zip cov) M

/-- `covariances[isub] = results.covariance_matrix` with its
`except ValueError` remap (pptoas.py lines 645-651): direct assignment
when the square matrix matches the `nfit x nfit` slot, numpy broadcast
of a 1x1 matrix, else the remap over the zero-initialised slot
(line 346).  The slot is meaningful at indices below `nfit`. -/
def unpack_covariance (nfit : Nat) (mask : List Nat) (cov : List (List ℚ)) :
    Nat → Nat → ℚ :=
  if cov.length = nfit then fun i j => (cov.getD i []).getD j 0
  else if cov.length = 1 then fun _ _ => (cov.getD 0 []).getD 0 0
  else remap_covariance (freeIndices mask) cov (fun _ _ => 0)

/-- Rows other than `ifit` are untouched by the inner loop. -/
lemma remap_row_ne (ifit r c : Nat) (hr : r ≠ ifit) :
    ∀ (cols : List (Nat × ℚ)) (M : Nat → Nat → ℚ),
      remap_row ifit cols M r c = M r c := by
  intro cols
  induction cols with
  | nil => intro M; rfl
  | cons q t ih =>
    intro M
    show remap_row ifit t (write_entry M ifit q.1 q.2) r c = M r c
    rw [ih]
    simp [write_entry, hr]

/-- Columns not named by the inner loop are untouched. -/
lemma remap_row_ne_col (ifit r c : Nat) :
    ∀ (cols : List (Nat × ℚ)) (M : Nat → Nat → ℚ), c ∉ cols.map Prod.fst →
      remap_row ifit cols M r c = M r c := by
  intro cols
  induction cols with
  | nil => intro M _; rfl
  | cons q t ih =>
    intro M hc
    rw [List.map_cons, List.mem_cons] at hc
    push_neg at hc
    show remap_row ifit t (write_entry M ifit q.1 q.2) r c = M r c
    rw [ih _ hc.2]
    simp [write_entry, hc.1]

/-- The inner loop writes the paired value at each named column (the
column positions being distinct, the single write survives). -/
lemma remap_row_write (ifit jfit : Nat) (v : ℚ) :
    ∀ (cols : List (Nat × ℚ)) (M : Nat → Nat → ℚ) (jj : Nat)
      (hjj : jj < cols.length), cols.get ⟨jj, hjj⟩ = (jfit, v) →
      (cols.map Prod.fst).Nodup →
      remap_row ifit cols M ifit jfit = v := by
  intro cols
  induction cols with
  | nil => intro M jj hjj _ _; exact absurd hjj (by simp)
  | cons q t ih =>
    intro M jj hjj hget hnd
    rw [List.map_cons, List.nodup_cons] at hnd
    cases jj with
    | zero =>
      have hq : q = (jfit, v) := hget
      have hni : jfit ∉ t.map Prod.fst := by
        have := hnd.1
        rw [hq] at this
        exact this
      show remap_row ifit t (write_entry M ifit q.1 q.2) ifit jfit = v
      rw [remap_row_ne_col ifit ifit jfit t _ hni]
      simp [write_entry, hq]
    | succ jj =>
      show remap_row ifit t (write_entry M ifit q.1 q.2) ifit jfit = v
      exact ih _ jj (by simpa using hjj) (by simpa using hget) hnd.2

/-- Rows whose position is not named by the outer loop are untouched. -/
lemma remap_rows_ne (freeIdx : List Nat) (r c : Nat) :
    ∀ (pairs : List (Nat × List ℚ)) (M : Nat → Nat → ℚ),
      r ∉ pairs.map Prod.fst → remap_rows freeIdx pairs M r c = M r c := by
  intro pairs
  induction pairs with
  | nil => intro M _; rfl
  | cons p t ih =>
    intro M hr
    rw [List.map_cons, List.mem_cons] at hr
    push_neg at hr
    show remap_rows freeIdx t (remap_row p.1 (freeIdx.zip p.2) M) r c = M r c
    rw [ih _ hr.2]
    exact remap_row_ne p.1 r c hr.1 _ M

/-- Columns outside the free-index list are untouched by every row. -/
lemma remap_rows_ne_col (freeIdx : List Nat) (r c : Nat) (hc : c ∉ freeIdx) :
    ∀ (pairs : List (Nat × List ℚ)) (M : Nat → Nat → ℚ),
      remap_rows freeIdx pairs M r c = M r c := by
  intro pairs
  induction pairs with
  | nil => intro M; rfl
  | cons p t ih =>
    intro M
    show remap_rows freeIdx t (remap_row p.1 (freeIdx.zip p.2) M) r c = M r c
    rw [ih]
    refine remap_row_ne_col p.1 r c _ M ?_
    intro hmem
    rcases List.mem_map.mp hmem with ⟨⟨a, b⟩, hab, hfst⟩
    exact hc (hfst ▸ (List.of_mem_zip hab).1)

/-- The outer loop writes reduced element (ii, jj) at the slot entry
addressed by the ii-th and jj-th free positions. -/
lemma remap_rows_write (freeIdx : List Nat) (hfree : freeIdx.Nodup)
    (ifit jfit : Nat) (row : List ℚ) (v : ℚ)
    (hlen : freeIdx.length ≤ row.length) (jj : Nat)
    (hjj : jj < (freeIdx.zip row).length)
    (hget : (freeIdx.zip row).get ⟨jj, hjj⟩ = (jfit, v)) :
    ∀ (pairs : List (Nat × List ℚ)) (M : Nat → Nat → ℚ) (ii : Nat)
      (hii : ii < pairs.length), pairs.get ⟨ii, hii⟩ = (ifit, row) →
      (pairs.map Prod.fst).Nodup →
      remap_rows freeIdx pairs M ifit jfit = v := by
  intro pairs
  induction pairs with
  | nil => intro M ii hii _ _; exact absurd hii (by simp)
  | cons p t ih =>
    intro M ii hii hget2 hnd
    rw [List.map_cons, List.nodup_cons] at hnd
    cases ii with
    | zero =>
      have hp : p = (ifit, row) := hget2
      have hni : ifit ∉ t.map Prod.fst := by
        have := hnd.1
        rw [hp] at this
        exact this
      show remap_rows freeIdx t (remap_row p.1 (freeIdx.zip p.2) M) ifit jfit = v
      rw [remap_rows_ne freeIdx ifit jfit t _ hni, hp]
      refine remap_row_write ifit jfit v (freeIdx.zip row) M jj hjj hget ?_
      rw [List.map_fst_zip _ _ hlen]
      exact hfree
    | succ ii =>
      show remap_rows freeIdx t (remap_row p.1 (freeIdx.zip p.2) M) ifit jfit = v
      exact ih _ ii (by simpa using hii) (by simpa using hget2) hnd.2

/-- The free-index list is duplicate-free. -/
lemma freeIndices_nodup (mask : List Nat) : (freeIndices mask).Nodup :=
  List.Nodup.filter _ (List.nodup_range _)

/-! ## TOA-flag assembly (pptoas.py lines 655-707)

The flag dictionary is built per successfully fit subintegration; the
embedding records which keys enter the mapping and in which order
(the claims below concern key presence; the values are computed from
the fit results).  `nu_ref_DM_given` is whether the local `nu_ref_DM`
(pptoas.py lines 448-453) is not None, i.e. whether the caller supplied
an output reference-frequency tuple; it is never reassigned before the
flag block, so with the default `nu_refs=None` it stays None.  The
caller-supplied pairs `addtnl` are applied last: values of colliding
keys are overwritten, key presence is a union. -/

/-- The ordered list of flag keys written by pptoas.py lines 655-707. -/
def toa_flag_keys (fit_flags : List Nat) (nu_ref_DM_given : Bool)
    (log10_tau print_phase print_flux print_parangle : Bool)
    (addtnl : List String) : List String :=
  (if fit_flags.getD 2 0 ≠ 0 then ["gm", "gm_err"] else []) ++
  (if fit_flags.getD 3 0 ≠ 0 then
    (if log10_tau then ["scat_time", "log10_scat_time", "log10_scat_time_err"]
     else ["scat_time", "scat_time_err"]) ++ ["scat_ref_freq", "scat_ind"]
   else []) ++
  (if fit_flags.getD 4 0 ≠ 0 then ["scat_ind_err"] else []) ++
  ["be", "fe", "f", "nbin", "nch", "nchx", "bw", "chbw", "subint", "tobs",
   "fratio", "tmplt", "snr"] ++
  (if nu_ref_DM_given ∧ fit_flags.getD 0 0 ≠ 0 ∧ fit_flags.getD 1 0 ≠ 0 then
    ["phi_DM_cov"] else []) ++
  ["gof"] ++
  (if print_phase then ["phs", "phs_err"] else []) ++
  (if print_flux then ["flux", "flux_err", "flux_ref_freq"] else []) ++
  (if print_parangle then ["par_angle"] else []) ++
  addtnl

/-! ## Narrowband initial-guess block (pptoas.py lines 996-1027)

`get_narrowband_TOAs` assigns many locals before the per-subintegration
initial-guess block, but never `nu_fit_tau` or `rot_prof`; those two
names are read by the `fit_scat` branch (lines 1002, 1008, 1013-1014 and
1016).  The star-import of the library module binds only the external
interface names of the spec (load_data, read_model, read_spline_model,
fit_phase_shift, scattering_times, scattering_portrait_FT,
scattering_profile_FT, instrumental_response_port_FT, guess_fit_freq,
write_TOAs, weighted_mean, get_bin_centers, get_red_chi2,
scattering_alpha, ...), none of which is `nu_fit_tau` or `rot_prof`, so
reading either raises NameError. -/

/-- The names bound in `get_narrowband_TOAs` before the guess block runs
for the first good subintegration (parameters and assignments, pptoas.py
lines 794-997). -/
def narrowband_locals : List String :=
  ["datafile", "tscrunch", "fit_scat", "log10_tau", "scat_guess",
   "print_phase", "print_flux", "print_parangle",
   "add_instrumental_response", "addtnl_toa_flags", "method", "bounds",
   "show_plot", "quiet", "already_warned", "warning_message", "start",
   "tot_duration", "datafiles", "iarch", "fit_duration", "data", "d",
   "nsub", "nchan", "nbin", "npol", "obs", "phis", "phi_errs", "TOAs",
   "TOA_errs", "taus", "tau_errs", "scales", "scale_errs", "channel_snrs",
   "profile_fluxes", "profile_flux_errs", "channel_red_chi2s",
   "covariances", "nfevals", "rcs", "MJDs", "model_data", "model",
   "icount", "isub", "sub_id", "epoch", "MJD", "P", "full_model",
   "unscat_params", "freqsx", "weightsx", "portx", "modelx",
   "inst_resp_port_FT", "errs", "tau_guess", "alpha_guess"]

/-- The method environment: each bound local carries some (opaque,
here rational-valued) value. -/
def narrowband_env (vals : String → ℚ) : List (String × ℚ) :=
  narrowband_locals.map (fun y => (y, vals y))

/-- Reading a name: a name absent from the environment raises NameError. -/
def lookup_name (env : List (String × ℚ)) (x : String) : Except String ℚ :=
  match env.lookup x with
  | some v => Except.ok v
  | none => Except.error ("NameError: name " ++ x ++ " is not defined")

/-- The initial-guess block of `get_narrowband_TOAs` (pptoas.py lines
996-1027), returning the `(phi_guess, tau_guess)` pair.  Bound locals
are passed explicitly; the ambient reads of `nu_fit_tau` and `rot_prof`
go through `lookup_name` (in every `fit_scat` branch `nu_fit_tau` is
read before `rot_prof`, matching Python evaluation order).  `qpow`,
`qlog10` and `phase_of` stand for the external power, log10 and
`fit_phase_shift(...).phase` operations; none is reached when a lookup
fails.  With `fit_scat=False` the block sets `tau_guess = 0` and
`phi_guess = 0.0` (line 1026). -/
def narrowband_initial_guesses (env : List (String × ℚ)) (fit_scat : Bool)
    (scat_guess : Option (ℚ × ℚ × ℚ)) (has_alpha has_gparams : Bool)
    (alpha_attr scattering_alpha gparams1 model_nu_ref : ℚ)
    (log10_tau : Bool) (P : ℚ) (nbin : Nat) (qpow : ℚ → ℚ → ℚ)
    (qlog10 : ℚ → ℚ) (phase_of : ℚ → ℚ) : Except String (ℚ × ℚ) :=
  if fit_scat then do
    let tg_ag : ℚ × ℚ ←
      match scat_guess with
      | some (tau_guess_s, tau_guess_ref, alpha_guess) => do
        let nu_fit_tau ← lookup_name env "nu_fit_tau"
        Except.ok ((tau_guess_s / P) * qpow (nu_fit_tau / tau_guess_ref) alpha_guess,
          alpha_guess)
      | none => do
        let alpha_guess := if has_alpha then alpha_attr else scattering_alpha
        if has_gparams then do
          let nu_fit_tau ← lookup_name env "nu_fit_tau"
          Except.ok ((gparams1 / P) * qpow (nu_fit_tau / model_nu_ref) alpha_guess,
            alpha_guess)
        else
          Except.ok (0, alpha_guess)
    let _nu_fit_tau ← lookup_name env "nu_fit_tau"
    let rot_prof ← lookup_name env "rot_prof"
    let phi_guess := phase_of rot_prof
    let tau_guess :=
      if log10_tau then qlog10 (if tg_ag.1 = 0 then ((nbin : ℚ))⁻¹ else tg_ag.1)
      else tg_ag.1
    Except.ok (phi_guess, tau_guess)
  else
    Except.ok (0, 0)

/-- The per-subintegration loop of `get_narrowband_TOAs` as it affects
the TOA accumulator: the guess block runs before the channel loop of
each good subintegration; an exception from it propagates (nothing
catches it) and ends the call, so the accumulator keeps what it already
held.  `emit isub` stands for the records the (external, per-channel)
fits of subintegration `isub` append on success. -/
def narrowband_subint_loop (guess : Nat → Except String (ℚ × ℚ))
    (emit : Nat → List ℚ) : List Nat → List ℚ → List ℚ × Option String
  | [], acc => (acc, none)
  | isub :: rest, acc =>
    match guess isub with
    | Except.error e => (acc, some e)
    | Except.ok _ => narrowband_subint_loop guess emit rest (acc ++ emit isub)

/-- A name outside the bound-locals list is not found in the method
environment. -/
lemma lookup_env_not_mem (vals : String → ℚ) (x : String) :
    ∀ (locals : List String), x ∉ locals →
      (locals.map (fun y => (y, vals y))).lookup x = none := by
  intro locals
  induction locals with
  | nil => intro _; rfl
  | cons a t ih =>
    intro hx
    rw [List.mem_cons] at hx
    push_neg at hx
    show List.lookup x ((a, vals a) :: t.map (fun y => (y, vals y))) = none
    simp only [List.lookup]
    rw [show (x == a) = false from beq_eq_false_iff_ne.mpr hx.1]
    exact ih hx.2

/-- Reading `nu_fit_tau` in the narrowband method environment raises
NameError. -/
lemma lookup_nu_fit_tau_fails (vals : String → ℚ) :
    lookup_name (narrowband_env vals) "nu_fit_tau" =
      Except.error "NameError: name nu_fit_tau is not defined" := by
  unfold lookup_name narrowband_env
  rw [lookup_env_not_mem vals _ _ (by decide)]
  rfl

/-- In every `fit_scat` branch the guess block fails with the
`nu_fit_tau` NameError. -/
lemma narrowband_guesses_NameError (vals : String → ℚ)
    (scat_guess : Option (ℚ × ℚ × ℚ)) (has_alpha has_gparams : Bool)
    (alpha_attr scattering_alpha gparams1 model_nu_ref : ℚ)
    (log10_tau : Bool) (P : ℚ) (nbin : Nat) (qpow : ℚ → ℚ → ℚ)
    (qlog10 : ℚ → ℚ) (phase_of : ℚ → ℚ) :
    narrowband_initial_guesses (narrowband_env vals) true scat_guess has_alpha
      has_gparams alpha_attr scattering_alpha gparams1 model_nu_ref log10_tau
      P nbin qpow qlog10 phase_of =
      Except.error "NameError: name nu_fit_tau is not defined" := by
  unfold narrowband_initial_guesses
  rcases scat_guess with _ | ⟨t, r, a⟩
  · cases has_gparams
    · simp only [lookup_nu_fit_tau_fails vals]
      rfl
    · simp only [lookup_nu_fit_tau_fails vals]
      rfl
  · simp only [lookup_nu_fit_tau_fails vals]
    rfl

/-! ## Channel-zapping evaluator (pptoas.py lines 1266-1343)

`get_channels_to_zap` flags, per subintegration, channels whose reduced
chi-square exceeds a threshold or is NaN or whose S/N is below the
effective per-channel threshold `(SNR_threshold**2 / nchx)**0.5`; with
`iterate=True` and a nonzero S/N threshold and a nonempty bad list it
re-tests with the threshold recomputed from the shrunken retained count
until no new channel is marked.  Per-channel S/N and reduced chi-square
values come from the earlier fit; a NaN reduced chi-square is modelled
as `none`.  `ok_ichans` is the list of good-channel indices of one
subintegration (distinct by construction, `np.where` indices). -/

/-- The comparison `snr < (SNR_threshold**2 / nGood)**0.5` (pptoas.py
lines 1299-1300 and 1310-1311), squared into an exact rational test: the
threshold is nonnegative, so a negative S/N is always below it, and a
nonnegative S/N is below it iff its square times the good-channel count
is below the squared threshold.  (The source divides by `nGood`; every
use has `nGood` positive.) -/
def chanBelowSNR (snrThr : ℚ) (nGood : Nat) (snr : ℚ) : Bool :=
  decide (snr < 0) || decide (snr ^ 2 * (nGood : ℚ) < snrThr ^ 2)

/-- The first marking pass (pptoas.py lines 1301-1314): reduced
chi-square above threshold, or NaN (`nan > x` is False in numpy, so the
`isnan` branch catches it), or — with a nonzero S/N threshold — S/N
below the effective threshold from the full good-channel count. -/
def zap_first_pass (ok_ichans : List Nat) (red_chi2 : Nat → Option ℚ)
    (snrs : Nat → ℚ) (snrThr rchi2Thr : ℚ) : List Nat :=
  ok_ichans.filter (fun c =>
    match red_chi2 c with
    | none => true
    | some r => decide (rchi2Thr < r) ||
        (decide (snrThr ≠ 0) && chanBelowSNR snrThr ok_ichans.length (snrs c)))

/-- One S/N re-scan (the for loop at pptoas.py lines 1324-1331): the
effective threshold is recomputed once from the current retained count
(lines 1322-1323), already-bad channels are skipped, failing channels
are appended. -/
def zap_snr_scan (ok_ichans : List Nat) (snrs : Nat → ℚ) (snrThr : ℚ)
    (bad : List Nat) : List Nat :=
  bad ++ ok_ichans.filter (fun c =>
    decide (c ∉ bad) &&
      chanBelowSNR snrThr (ok_ichans.length - bad.length) (snrs c))

/-- The `while (added_new and (len(ok_ichans) - len(bad_ichans)))` loop
(pptoas.py lines 1317-1333).  The fuel argument stands in for the
termination measure: a pass that adds nothing exits, every other pass
strictly grows `bad`, which (for duplicate-free `ok_ichans`) is bounded
by `ok_ichans.length`, so fuel `ok_ichans.length + 1` always reaches a
genuine exit — this is proved, not assumed, in the C6 theorem. -/
def zap_snr_loop (ok_ichans : List Nat) (snrs : Nat → ℚ) (snrThr : ℚ) :
    Nat → List Nat → List Nat
  | 0, bad => bad
  | fuel + 1, bad =>
    if ok_ichans.length - bad.length = 0 then bad
    else
      let newBad := zap_snr_scan ok_ichans snrs snrThr bad
      if newBad.length = bad.length then newBad
      else zap_snr_loop ok_ichans snrs snrThr fuel newBad

/-- Per-subintegration channel-zapping evaluation (pptoas.py lines
1292-1333): the first pass, then — when iterating with a nonzero S/N
threshold and a nonempty bad list — the fixed-point S/N re-scan loop. -/
def get_channels_to_zap_sub (ok_ichans : List Nat)
    (red_chi2 : Nat → Option ℚ) (snrs : Nat → ℚ) (snrThr rchi2Thr : ℚ)
    (iterate : Bool) : List Nat :=
  let bad := zap_first_pass ok_ichans red_chi2 snrs snrThr rchi2Thr
  if iterate ∧ snrThr ≠ 0 ∧ bad.length ≠ 0 then
    zap_snr_loop ok_ichans snrs snrThr (ok_ichans.length + 1) bad
  else bad

/-- A failed S/N test gives the spec-side square-root bound. -/
lemma chanBelowSNR_false_sqrt (snrThr : ℚ) (n : Nat) (s : ℚ)
    (h : chanBelowSNR snrThr n s = false) :
    Real.sqrt ((snrThr : ℝ) ^ 2 / (n : ℝ)) ≤ (s : ℝ) := by
  unfold chanBelowSNR at h
  rw [Bool.or_eq_false_iff, decide_eq_false_iff_not, decide_eq_false_iff_not] at h
  obtain ⟨hs, hle⟩ := h
  push_neg at hs hle
  have hs' : (0 : ℝ) ≤ (s : ℝ) := by exact_mod_cast hs
  have hle' : (snrThr : ℝ) ^ 2 ≤ (s : ℝ) ^ 2 * (n : ℝ) := by exact_mod_cast hle
  rcases Nat.eq_zero_or_pos n with hn | hn
  · subst hn
    simpa using hs'
  · have hnR : (0 : ℝ) < (n : ℝ) := by exact_mod_cast hn
    have hdiv : (snrThr : ℝ) ^ 2 / (n : ℝ) ≤ (s : ℝ) ^ 2 := by
      rw [div_le_iff₀ hnR]
      linarith
    calc Real.sqrt ((snrThr : ℝ) ^ 2 / (n : ℝ))
        ≤ Real.sqrt ((s : ℝ) ^ 2) := Real.sqrt_le_sqrt hdiv
      _ = (s : ℝ) := Real.sqrt_sq hs'

/-- A re-scan result stays inside the good-channel list. -/
lemma zap_snr_scan_subset (ok_ichans : List Nat) (snrs : Nat → ℚ)
    (snrThr : ℚ) (bad : List Nat) (hb : bad ⊆ ok_ichans) :
    zap_snr_scan ok_ichans snrs snrThr bad ⊆ ok_ichans := by
  intro c hc
  rcases List.mem_append.mp hc with h | h
  · exact hb h
  · exact (List.mem_filter.mp h).1

/-- A re-scan result is duplicate-free. -/
lemma zap_snr_scan_nodup (ok_ichans : List Nat) (snrs : Nat → ℚ)
    (snrThr : ℚ) (bad : List Nat) (hok : ok_ichans.Nodup)
    (hbad : bad.Nodup) :
    (zap_snr_scan ok_ichans snrs snrThr bad).Nodup := by
  rw [zap_snr_scan, List.nodup_append]
  refine ⟨hbad, List.Nodup.filter _ hok, ?_⟩
  intro a ha haf
  have hp := (List.mem_filter.mp haf).2
  rw [Bool.and_eq_true, decide_eq_true_eq] at hp
  exact hp.1 ha

/-- A re-scan never shrinks the bad list. -/
lemma zap_snr_scan_length_ge (ok_ichans : List Nat) (snrs : Nat → ℚ)
    (snrThr : ℚ) (bad : List Nat) :
    bad.length ≤ (zap_snr_scan ok_ichans snrs snrThr bad).length := by
  rw [zap_snr_scan, List.length_append]
  omega

/-- A duplicate-free subset is no longer than its superset. -/
lemma nodup_subset_length_le {l₁ l₂ : List Nat} (h₁ : l₁.Nodup)
    (hsub : l₁ ⊆ l₂) : l₁.length ≤ l₂.length :=
  (List.Nodup.subperm h₁ hsub).length_le

/-- One unfolding of the loop body. -/
lemma zap_snr_loop_succ (ok_ichans : List Nat) (snrs : Nat → ℚ)
    (snrThr : ℚ) (fuel : Nat) (bad : List Nat) :
    zap_snr_loop ok_ichans snrs snrThr (fuel + 1) bad =
      if ok_ichans.length - bad.length = 0 then bad
      else if (zap_snr_scan ok_ichans snrs snrThr bad).length = bad.length then
        zap_snr_scan ok_ichans snrs snrThr bad
      else zap_snr_loop ok_ichans snrs snrThr fuel
        (zap_snr_scan ok_ichans snrs snrThr bad) := rfl

/-- Invariants and exit property of the S/N re-scan loop: with enough
fuel the loop reaches a genuine exit, at which either every good channel
is bad or the final scan (whose threshold used the final retained count)
marked nothing new, i.e. every retained channel passed it. -/
lemma zap_snr_loop_spec (ok_ichans : List Nat) (snrs : Nat → ℚ)
    (snrThr : ℚ) (hok : ok_ichans.Nodup) :
    ∀ (fuel : Nat) (bad : List Nat), bad.Nodup → bad ⊆ ok_ichans →
      ok_ichans.length - bad.length < fuel →
      (zap_snr_loop ok_ichans snrs snrThr fuel bad).Nodup ∧
      zap_snr_loop ok_ichans snrs snrThr fuel bad ⊆ ok_ichans ∧
      ((zap_snr_loop ok_ichans snrs snrThr fuel bad).length = ok_ichans.length ∨
        ∀ c ∈ ok_ichans, c ∉ zap_snr_loop ok_ichans snrs snrThr fuel bad →
          chanBelowSNR snrThr
            (ok_ichans.length -
              (zap_snr_loop ok_ichans snrs snrThr fuel bad).length)
            (snrs c) = false) := by
  intro fuel
  induction fuel with
  | zero => intro bad _ _ hlt; omega
  | succ fuel ih =>
    intro bad hbad hsub hlt
    by_cases hz : ok_ichans.length - bad.length = 0
    · rw [zap_snr_loop_succ, if_pos hz]
      have hle : bad.length ≤ ok_ichans.length := nodup_subset_length_le hbad hsub
      exact ⟨hbad, hsub, Or.inl (by omega)⟩
    · by_cases hsame :
        (zap_snr_scan ok_ichans snrs snrThr bad).length = bad.length
      · have hfilt :
            ok_ichans.filter (fun c => decide (c ∉ bad) &&
              chanBelowSNR snrThr (ok_ichans.length - bad.length) (snrs c)) = [] := by
          have h0 := hsame
          rw [zap_snr_scan, List.length_append] at h0
          rw [← List.length_eq_zero]
          omega
        have hscan : zap_snr_scan ok_ichans snrs snrThr bad = bad := by
          rw [zap_snr_scan, hfilt, List.append_nil]
        rw [zap_snr_loop_succ, if_neg hz, if_pos hsame, hscan]
        refine ⟨hbad, hsub, Or.inr fun c hc hcb => ?_⟩
        have hnone := List.filter_eq_nil_iff.mp hfilt c hc
        cases hcbs : chanBelowSNR snrThr (ok_ichans.length - bad.length) (snrs c)
        · rfl
        · exact absurd (by rw [Bool.and_eq_true, decide_eq_true_eq]
                           exact ⟨hcb, hcbs⟩) hnone
      · rw [zap_snr_loop_succ, if_neg hz, if_neg hsame]
        have hge := zap_snr_scan_length_ge ok_ichans snrs snrThr bad
        exact ih (zap_snr_scan ok_ichans snrs snrThr bad)
          (zap_snr_scan_nodup ok_ichans snrs snrThr bad hok hbad)
          (zap_snr_scan_subset ok_ichans snrs snrThr bad hsub)
          (by omega)

/-- C1 (code_bug evidence): with `fit_DM = fit_GM = true` (base mask
`[1,1,1,0,0]`), an archive whose first good subintegration has one good
channel and whose second has two yields the masks
`[1,0,0,0,0], [1,0,0,0,0]`: the two-channel subintegration gets DM
*off*, because `fit_flags[2] = 0` mutates the stale one-channel mask,
contradicting the claim and the `fitting for phase and DM only` message
the code prints on that branch; and a two-channel first subintegration
raises UnboundLocalError outright. -/
theorem C1_two_channel_mask_stale :
    fit_flags_trace true true (fit_param_flags true true false false) [1, 2] none =
      [Except.ok [1, 0, 0, 0, 0], Except.ok [1, 0, 0, 0, 0]] ∧
    (fit_flags_trace true true (fit_param_flags true true false false) [2] none =
      [Except.error "UnboundLocalError: fit_flags referenced before assignment"]) ∧
    List.getD [1, 0, 0, 0, 0] 1 0 = 0 := by
  constructor
  · rfl
  · constructor
    · rfl
    · rfl

/-- C2: in barycentric mode the reported DM is the fitted DM multiplied
by the Doppler factor whenever the final fit mask has DM free, the
reported GM is the fitted GM multiplied by the Doppler factor cubed
whenever GM is free (multiplication, never division), and with
`bary = false` both are reported unchanged. -/
theorem C2_doppler_correction (fit_flags : List Nat) (df DM GM : ℚ) :
    (fit_flags.getD 1 0 ≠ 0 →
      (doppler_correct_DM_GM true fit_flags df DM GM).1 = DM * df) ∧
    (fit_flags.getD 1 0 = 0 →
      (doppler_correct_DM_GM true fit_flags df DM GM).1 = DM) ∧
    (fit_flags.getD 2 0 ≠ 0 →
      (doppler_correct_DM_GM true fit_flags df DM GM).2 = GM * df ^ 3) ∧
    (fit_flags.getD 2 0 = 0 →
      (doppler_correct_DM_GM true fit_flags df DM GM).2 = GM) ∧
    doppler_correct_DM_GM false fit_flags df DM GM = (DM, GM) := by
  refine ⟨fun h1 => ?_, fun h1 => ?_, fun h2 => ?_, fun h2 => ?_, ?_⟩
  · simp only [List.getD_eq_getElem?_getD] at h1
    simp [doppler_correct_DM_GM, h1]
  · simp only [List.getD_eq_getElem?_getD] at h1
    simp [doppler_correct_DM_GM, h1]
  · simp only [List.getD_eq_getElem?_getD] at h2
    simp [doppler_correct_DM_GM, h2]
  · simp only [List.getD_eq_getElem?_getD] at h2
    simp [doppler_correct_DM_GM, h2]
  · simp [doppler_correct_DM_GM]

/-- Witness for C2 at a concrete input: mask `[1,1,1,0,0]`, Doppler
factor 2, fitted DM 3 and GM 5 give reported DM 6 and GM 40. -/
theorem C2_doppler_correction_witness :
    List.getD [1, 1, 1, 0, 0] 1 0 ≠ 0 ∧
    (doppler_correct_DM_GM true [1, 1, 1, 0, 0] 2 3 5).1 = 3 * 2 ∧
    (doppler_correct_DM_GM true [1, 1, 1, 0, 0] 2 3 5).2 = 5 * 2 ^ 3 :=
  ⟨by decide,
   (C2_doppler_correction [1, 1, 1, 0, 0] 2 3 5).1 (by decide),
   (C2_doppler_correction [1, 1, 1, 0, 0] 2 3 5).2.2.1 (by decide)⟩

/-- C3: the absolute TOA is the subintegration epoch plus
`(fitted phase x period + backend delay)` divided by 86400 seconds per
day, and the TOA uncertainty is the fitted-phase uncertainty times the
period expressed in microseconds. -/
theorem C3_TOA_computation (epoch phi P backend_delay phi_err : ℚ) :
    calc_TOA epoch phi P backend_delay = epoch + (phi * P + backend_delay) / 86400 ∧
    calc_TOA_err phi_err P = phi_err * P * 1000000 := by
  constructor
  · norm_num [calc_TOA]
  · rfl

/-- C7: a datafile list longer than the hard maximum (999) makes the
constructor fail immediately with the diagnostic, before any archive is
loaded or subintegration processed (the error value carries no retained
file list). -/
theorem C7_max_nfile_guard (datafiles : List String)
    (h : datafiles.length > max_nfile) :
    GetTOAs_init datafiles =
      Except.error "Too many archives.  See/change max_nfile(=999) in pptoas.py." := by
  simp [GetTOAs_init, h]

/-- Witness for C7: 1000 copies of one archive name trip the guard. -/
theorem C7_max_nfile_guard_witness :
    (List.replicate 1000 "arch.fits").length > max_nfile ∧
    GetTOAs_init (List.replicate 1000 "arch.fits") =
      Except.error "Too many archives.  See/change max_nfile(=999) in pptoas.py." :=
  ⟨by rw [List.length_replicate]; norm_num [max_nfile],
   C7_max_nfile_guard _ (by rw [List.length_replicate]; norm_num [max_nfile])⟩

/-- C9 counterexample: invoked with the datafile argument missing, the
program prints the usage text but exits with status 0 — `parser.exit()`
defaults to status 0 — so the claimed non-zero exit status is false at
this input. -/
theorem C9_counterexample_exit_status_zero :
    main_required_files_guard none (some "model.gmodel") = some (true, 0) ∧
    ¬ (∀ r, main_required_files_guard none (some "model.gmodel") = some r →
        r.2 ≠ 0) := by
  refine ⟨rfl, fun h => ?_⟩
  exact h (true, 0) rfl rfl

/-- C9 amended: when the required datafile or modelfile argument is
missing, the program prints the usage/help text and exits, with exit
status 0 (the optparse `parser.exit()` default), not a non-zero status. -/
theorem C9_missing_args_prints_help_exits_zero
    (datafiles modelfile : Option String)
    (h : datafiles = none ∨ modelfile = none) :
    main_required_files_guard datafiles modelfile = some (true, 0) := by
  rcases h with h | h <;> subst h
  · have hc : ((none : Option String).isNone = true) ∨ (modelfile.isNone = true) :=
      Or.inl rfl
    unfold main_required_files_guard
    rw [if_pos hc]
  · have hc : (datafiles.isNone = true) ∨ ((none : Option String).isNone = true) :=
      Or.inr rfl
    unfold main_required_files_guard
    rw [if_pos hc]

/-- Witness for the amended C9 at a concrete input. -/
theorem C9_missing_args_witness :
    ((none : Option String) = none ∨ (some "m.gmodel" : Option String) = none) ∧
    main_required_files_guard none (some "m.gmodel") = some (true, 0) :=
  ⟨Or.inl rfl, C9_missing_args_prints_help_exits_zero none (some "m.gmodel") (Or.inl rfl)⟩

/-- C4: after an archive is processed, `DeltaDM_mean` is the weighted
mean of `DM_i - DM0` over the good subintegrations with weights
`w_i = DM_err_i^-2` when all DM uncertainties are nonzero and uniform
weights otherwise, and when more than one good subintegration exists the
squared archive-level uncertainty is the inverse weight sum multiplied
by the inflation factor `(sum of (DeltaDM_i - mean)^2 w_i) / (n - 1)`. -/
theorem C4_archive_DM_aggregation (DMs errs : List ℚ) (DM0 : ℚ)
    (hlen : errs.length = DMs.length) :
    (DeltaDM_aggregate DMs DM0 errs).1 =
      (∑ i in Finset.range DMs.length, (DMs.getD i 0 - DM0) * spec_DM_weight errs i) /
        (∑ i in Finset.range DMs.length, spec_DM_weight errs i) ∧
    (1 < DMs.length →
      (DeltaDM_aggregate DMs DM0 errs).2 =
        (∑ i in Finset.range DMs.length, spec_DM_weight errs i)⁻¹ *
          ((∑ i in Finset.range DMs.length,
              ((DMs.getD i 0 - DM0) - (DeltaDM_aggregate DMs DM0 errs).1) ^ 2 *
                spec_DM_weight errs i) / ((DMs.length : ℚ) - 1))) := by
  have hΔlen : (DMs.map (fun x => x - DM0)).length = DMs.length := by simp
  have hwlen : (DM_weights errs).length = (DMs.map (fun x => x - DM0)).length := by
    rw [DM_weights_length, hlen, hΔlen]
  have hsum_w : (DM_weights errs).sum =
      ∑ i in Finset.range DMs.length, spec_DM_weight errs i := by
    rw [list_sum_eq_range_sum, DM_weights_length, hlen]
    refine Finset.sum_congr rfl fun i hi => ?_
    exact DM_weights_getD errs i (by rw [hlen]; exact Finset.mem_range.mp hi)
  have hzip_mean :
      (List.zipWith (fun v w => v * w) (DMs.map (fun x => x - DM0)) (DM_weights errs)).sum =
        ∑ i in Finset.range DMs.length, (DMs.getD i 0 - DM0) * spec_DM_weight errs i := by
    rw [zipWith_sum_range _ _ _ hwlen, hΔlen]
    refine Finset.sum_congr rfl fun i hi => ?_
    rw [getD_map_sub DMs DM0 i (Finset.mem_range.mp hi),
      DM_weights_getD errs i (by rw [hlen]; exact Finset.mem_range.mp hi)]
  have hzip_var : ∀ M : ℚ,
      (List.zipWith (fun d w => (d - M) ^ 2 * w) (DMs.map (fun x => x - DM0))
          (DM_weights errs)).sum =
        ∑ i in Finset.range DMs.length,
          ((DMs.getD i 0 - DM0) - M) ^ 2 * spec_DM_weight errs i := by
    intro M
    rw [zipWith_sum_range _ _ _ hwlen, hΔlen]
    refine Finset.sum_congr rfl fun i hi => ?_
    rw [getD_map_sub DMs DM0 i (Finset.mem_range.mp hi),
      DM_weights_getD errs i (by rw [hlen]; exact Finset.mem_range.mp hi)]
  have hmean : (DeltaDM_aggregate DMs DM0 errs).1 =
      (∑ i in Finset.range DMs.length, (DMs.getD i 0 - DM0) * spec_DM_weight errs i) /
        (∑ i in Finset.range DMs.length, spec_DM_weight errs i) := by
    simp only [DeltaDM_aggregate]
    rw [hzip_mean, hsum_w]
  refine ⟨hmean, fun hn => ?_⟩
  have hunfold : (DeltaDM_aggregate DMs DM0 errs).2 =
      ((DM_weights errs).sum)⁻¹ *
        ((List.zipWith (fun d w => (d - (DeltaDM_aggregate DMs DM0 errs).1) ^ 2 * w)
            (DMs.map (fun x => x - DM0)) (DM_weights errs)).sum /
          ((DMs.length : ℚ) - 1)) := by
    simp only [DeltaDM_aggregate]
    rw [if_pos hn]
  rw [hunfold, hzip_var, hsum_w]

/-- C5 counterexample: with only DM requested (`fit_DM` true, `fit_GM`,
`fit_scat`, `fix_alpha` false) the archive-level covariance slot is
`nfit x nfit = 2 x 2` (pptoas.py lines 227-231 and 346), so the claimed
fixed 5 x 5 slot is false at this input. -/
theorem C5_counterexample_slot_not_fixed_5x5 :
    nfit_of true false false false = 2 ∧ ¬ nfit_of true false false false = 5 := by
  constructor <;> decide

/-- C5 amended: when the reduced covariance matrix (sized to the free
parameters) triggers the shape-mismatch ValueError (its dimension is
neither `nfit` nor the broadcastable 1), the handler remaps element
(ii, jj) into the `nfit x nfit` archive-level slot at the row/column
positions of the ii-th and jj-th free parameters given by the fit mask,
leaving every other slot entry zero; the slot is 5 x 5 exactly when all
of DM, GM and scattering with free alpha are requested. -/
theorem C5_cov_remap_into_nfit_slot (nfit : Nat) (mask : List Nat)
    (cov : List (List ℚ))
    (hk : cov.length = (freeIndices mask).length)
    (hrows : ∀ row ∈ cov, row.length = (freeIndices mask).length)
    (hne : cov.length ≠ nfit) (h1 : cov.length ≠ 1) :
    (∀ ii jj, ii < (freeIndices mask).length → jj < (freeIndices mask).length →
      unpack_covariance nfit mask cov ((freeIndices mask).getD ii 0)
          ((freeIndices mask).getD jj 0) = (cov.getD ii []).getD jj 0) ∧
    (∀ r c, r ∉ freeIndices mask → unpack_covariance nfit mask cov r c = 0) ∧
    (∀ r c, c ∉ freeIndices mask → unpack_covariance nfit mask cov r c = 0) ∧
    nfit_of true true true false = 5 := by
  have hun : unpack_covariance nfit mask cov =
      remap_covariance (freeIndices mask) cov (fun _ _ => 0) := by
    unfold unpack_covariance
    rw [if_neg hne, if_neg h1]
  refine ⟨?_, ?_, ?_, by decide⟩
  · intro ii jj hii hjj
    rw [hun]
    unfold remap_covariance
    have hiic : ii < cov.length := by rw [hk]; exact hii
    have hrowlen : (cov.get ⟨ii, hiic⟩).length = (freeIndices mask).length :=
      hrows _ (by rw [List.get_eq_getElem]; exact List.getElem_mem hiic)
    have hjr : jj < (cov.get ⟨ii, hiic⟩).length := by rw [hrowlen]; exact hjj
    have hjjz : jj < ((freeIndices mask).zip (cov.get ⟨ii, hiic⟩)).length := by
      rw [List.length_zip, hrowlen, min_self]; exact hjj
    have hiiz : ii < ((freeIndices mask).zip cov).length := by
      rw [List.length_zip, hk, min_self]; exact hii
    refine remap_rows_write (freeIndices mask) (freeIndices_nodup mask)
      ((freeIndices mask).getD ii 0) ((freeIndices mask).getD jj 0)
      (cov.get ⟨ii, hiic⟩) ((cov.getD ii []).getD jj 0)
      (le_of_eq hrowlen.symm) jj hjjz ?_
      ((freeIndices mask).zip cov) (fun _ _ => 0) ii hiiz ?_ ?_
    · rw [List.get_eq_getElem, List.getElem_zip]
      rw [List.getD_eq_getElem _ _ hjj, List.getD_eq_getElem cov _ hiic,
        List.getD_eq_getElem _ _ (by rw [List.get_eq_getElem] at hjr; exact hjr)]
      rfl
    · rw [List.get_eq_getElem, List.getElem_zip]
      rw [List.getD_eq_getElem _ _ hii]
      rfl
    · rw [List.map_fst_zip _ _ (le_of_eq hk.symm)]
      exact freeIndices_nodup mask
  · intro r c hr
    rw [hun]
    unfold remap_covariance
    rw [remap_rows_ne (freeIndices mask) r c _ _ (by
      rw [List.map_fst_zip _ _ (le_of_eq hk.symm)]; exact hr)]
  · intro r c hc
    rw [hun]
    unfold remap_covariance
    rw [remap_rows_ne_col (freeIndices mask) r c hc]

/-- Sample reduced matrix for the C5 witness: the 4 x 4 covariance of a
two-good-channel subintegration under all-parameters-requested options
(free mask `[1,1,0,1,1]`, slot 5 x 5). -/
def covExample : List (List ℚ) :=
  [[11, 12, 13, 14], [21, 22, 23, 24], [31, 32, 33, 34], [41, 42, 43, 44]]

/-- Witness for the amended C5: the free positions of `[1,1,0,1,1]` are
`[0,1,3,4]`; reduced element (2,3) lands at slot entry (3,4) and the
fixed-parameter row/column 2 stays zero. -/
theorem C5_cov_remap_witness :
    covExample.length = (freeIndices [1, 1, 0, 1, 1]).length ∧
    unpack_covariance 5 [1, 1, 0, 1, 1] covExample 3 4 = 34 ∧
    unpack_covariance 5 [1, 1, 0, 1, 1] covExample 2 2 = 0 := by
  refine ⟨by decide, ?_, ?_⟩
  · exact (C5_cov_remap_into_nfit_slot 5 [1, 1, 0, 1, 1] covExample (by decide)
      (by decide) (by decide) (by decide)).1 2 3 (by decide) (by decide)
  · exact (C5_cov_remap_into_nfit_slot 5 [1, 1, 0, 1, 1] covExample (by decide)
      (by decide) (by decide) (by decide)).2.1 2 2 (by decide)

/-- Witness for C4 at the spec test point: two subintegrations with
`DeltaDM` values `+3` and `-3` and equal uncertainty 2. -/
theorem C4_archive_DM_aggregation_witness :
    (([2, 2] : List ℚ).length = ([13, 7] : List ℚ).length) ∧
    (DeltaDM_aggregate [13, 7] 10 [2, 2]).1 =
      (∑ i in Finset.range 2, (([13, 7] : List ℚ).getD i 0 - 10) * spec_DM_weight [2, 2] i) /
        (∑ i in Finset.range 2, spec_DM_weight [2, 2] i) :=
  ⟨rfl, (C4_archive_DM_aggregation [13, 7] [2, 2] 10 rfl).1⟩

/-- C8 counterexample: in wideband mode with `fit_DM=true`,
`fit_GM=false`, a 16-good-channel subintegration gets the base mask
`[1,1,0,0,0]`; the record then carries no `gm` flag, but with the
default `nu_refs=None` (so `nu_ref_DM` is None) the `phi_DM_cov` flag is
*absent* as well, refuting the claim at this input. -/
theorem C8_counterexample_phi_DM_cov_absent :
    select_fit_flags true false (fit_param_flags true false false false) 16 none =
      Except.ok [1, 1, 0, 0, 0] ∧
    "gm" ∉ toa_flag_keys [1, 1, 0, 0, 0] false false false false false [] ∧
    "phi_DM_cov" ∉ toa_flag_keys [1, 1, 0, 0, 0] false false false false false [] := by
  refine ⟨rfl, by decide, by decide⟩

/-- Key list for the DM-only free mask `[1,1,0,0,0]`: the gm and
scattering segments are empty, the `phi_DM_cov` segment depends only on
whether a reference frequency was given. -/
lemma toa_flag_keys_mask11000 (g l p f pa : Bool) (ad : List String) :
    toa_flag_keys [1, 1, 0, 0, 0] g l p f pa ad =
      ["be", "fe", "f", "nbin", "nch", "nchx", "bw", "chbw", "subint", "tobs",
        "fratio", "tmplt", "snr"] ++
      (if g = true then ["phi_DM_cov"] else []) ++ ["gof"] ++
      (if p = true then ["phs", "phs_err"] else []) ++
      (if f = true then ["flux", "flux_err", "flux_ref_freq"] else []) ++
      (if pa = true then ["par_angle"] else []) ++ ad := by
  unfold toa_flag_keys
  simp [List.getD_cons_succ, List.getD_cons_zero]

/-- C8 amended: in wideband `get_TOAs` with `fit_DM=true` and
`fit_GM=false`, every record from a subintegration with at least two
good channels carries no `gm` flag (absent a caller-supplied one), and
carries a `phi_DM_cov` flag exactly when the caller supplied an output
reference frequency (`nu_refs` not None); with the default it is absent. -/
theorem C8_gm_absent_phi_DM_cov_iff_nu_ref (nchx : Nat)
    (prev : Option (List Nat)) (mask : List Nat)
    (log10_tau pp pf ppa : Bool) (addtnl : List String) (h2 : 2 ≤ nchx)
    (hmask : select_fit_flags true false (fit_param_flags true false false false)
      nchx prev = Except.ok mask)
    (hgm : "gm" ∉ addtnl) (hcov : "phi_DM_cov" ∉ addtnl) :
    "gm" ∉ toa_flag_keys mask true log10_tau pp pf ppa addtnl ∧
    "phi_DM_cov" ∈ toa_flag_keys mask true log10_tau pp pf ppa addtnl ∧
    "phi_DM_cov" ∉ toa_flag_keys mask false log10_tau pp pf ppa addtnl := by
  have hm : mask = [1, 1, 0, 0, 0] := by
    unfold select_fit_flags at hmask
    rw [if_neg (by omega)] at hmask
    rw [if_neg (by simp)] at hmask
    cases hmask
    rfl
  subst hm
  refine ⟨?_, ?_, ?_⟩
  · intro hmem
    rw [toa_flag_keys_mask11000] at hmem
    cases pp <;> cases pf <;> cases ppa <;> simp at hmem <;> exact hgm hmem
  · rw [toa_flag_keys_mask11000]
    cases pp <;> cases pf <;> cases ppa <;> simp
  · intro hmem
    rw [toa_flag_keys_mask11000] at hmem
    cases pp <;> cases pf <;> cases ppa <;> simp at hmem <;> exact hcov hmem

/-- Witness for the amended C8 at a 16-good-channel subintegration with
no extra caller flags. -/
theorem C8_gm_absent_phi_DM_cov_witness :
    (2 ≤ 16) ∧
    "gm" ∉ toa_flag_keys [1, 1, 0, 0, 0] true false false false false [] ∧
    "phi_DM_cov" ∈ toa_flag_keys [1, 1, 0, 0, 0] true false false false false [] :=
  ⟨by decide,
   (C8_gm_absent_phi_DM_cov_iff_nu_ref 16 none [1, 1, 0, 0, 0] false false false
     false [] (by decide) rfl (by decide) (by decide)).1,
   (C8_gm_absent_phi_DM_cov_iff_nu_ref 16 none [1, 1, 0, 0, 0] false false false
     false [] (by decide) rfl (by decide) (by decide)).2.1⟩

/-- C10: with `fit_scat=True`, the narrowband guess construction for the
first good subintegration of any loadable archive reads `nu_fit_tau` and
`rot_prof`, names never bound in `get_narrowband_TOAs`; the NameError it
raises propagates out of the subintegration loop before any channel is
fit, so the accumulator stays empty: no narrowband TOA record is ever
produced with scattering fitting enabled. -/
theorem C10_narrowband_fit_scat_NameError (vals : String → ℚ)
    (scat_guess : Option (ℚ × ℚ × ℚ)) (has_alpha has_gparams : Bool)
    (alpha_attr scattering_alpha gparams1 model_nu_ref : ℚ)
    (log10_tau : Bool) (P : ℚ) (nbin : Nat) (qpow : ℚ → ℚ → ℚ)
    (qlog10 : ℚ → ℚ) (phase_of : ℚ → ℚ) (emit : Nat → List ℚ)
    (isub0 : Nat) (rest : List Nat) :
    "nu_fit_tau" ∉ narrowband_locals ∧ "rot_prof" ∉ narrowband_locals ∧
    narrowband_subint_loop
      (fun _ => narrowband_initial_guesses (narrowband_env vals) true
        scat_guess has_alpha has_gparams alpha_attr scattering_alpha gparams1
        model_nu_ref log10_tau P nbin qpow qlog10 phase_of)
      emit (isub0 :: rest) [] =
      ([], some "NameError: name nu_fit_tau is not defined") := by
  refine ⟨by decide, by decide, ?_⟩
  have h := narrowband_guesses_NameError vals scat_guess has_alpha has_gparams
    alpha_attr scattering_alpha gparams1 model_nu_ref log10_tau P nbin qpow
    qlog10 phase_of
  simp only [narrowband_subint_loop, h]

/-- C6: for every subintegration evaluated with a nonzero S/N threshold
and `iterate=True`, the S/N-cut loop terminates, and at termination
either every good channel has been marked bad, or every retained
channel's S/N is at least the effective per-channel threshold
`sqrt(SNR_threshold^2 / n_retained)` recomputed from the final
retained-channel count.  (The good-channel index list is duplicate-free,
being `np.where` output.) -/
theorem C6_zap_iteration_fixed_point (ok_ichans : List Nat)
    (red_chi2 : Nat → Option ℚ) (snrs : Nat → ℚ) (snrThr rchi2Thr : ℚ)
    (hok : ok_ichans.Nodup) (hthr : snrThr ≠ 0) :
    (∀ c ∈ ok_ichans,
      c ∈ get_channels_to_zap_sub ok_ichans red_chi2 snrs snrThr rchi2Thr true) ∨
    (∀ c ∈ ok_ichans,
      c ∉ get_channels_to_zap_sub ok_ichans red_chi2 snrs snrThr rchi2Thr true →
      Real.sqrt ((snrThr : ℝ) ^ 2 /
          ((ok_ichans.length -
            (get_channels_to_zap_sub ok_ichans red_chi2 snrs snrThr rchi2Thr
              true).length : Nat) : ℝ)) ≤ (snrs c : ℝ)) := by
  have hdthr : decide (snrThr ≠ 0) = true := by simpa using hthr
  by_cases hb0 :
      (zap_first_pass ok_ichans red_chi2 snrs snrThr rchi2Thr).length = 0
  · have hres : get_channels_to_zap_sub ok_ichans red_chi2 snrs snrThr
        rchi2Thr true = zap_first_pass ok_ichans red_chi2 snrs snrThr rchi2Thr := by
      unfold get_channels_to_zap_sub
      rw [if_neg (by simp [hb0])]
    have hnil : zap_first_pass ok_ichans red_chi2 snrs snrThr rchi2Thr = [] :=
      List.length_eq_zero.mp hb0
    have hnone : ∀ a ∈ ok_ichans,
        ¬((fun c => match red_chi2 c with
          | none => true
          | some r => decide (rchi2Thr < r) ||
              (decide (snrThr ≠ 0) &&
                chanBelowSNR snrThr ok_ichans.length (snrs c))) a = true) :=
      List.filter_eq_nil_iff.mp hnil
    right
    intro c hc _
    rw [hres, hnil]
    simp only [List.length_nil, Nat.sub_zero]
    have hcnone : ¬(match red_chi2 c with
        | none => true
        | some r => decide (rchi2Thr < r) ||
            (decide (snrThr ≠ 0) &&
              chanBelowSNR snrThr ok_ichans.length (snrs c))) = true :=
      hnone c hc
    cases hrc : red_chi2 c with
    | none => rw [hrc] at hcnone; exact absurd rfl hcnone
    | some r =>
      rw [hrc] at hcnone
      have hfalse : (decide (rchi2Thr < r) ||
          (decide (snrThr ≠ 0) &&
            chanBelowSNR snrThr ok_ichans.length (snrs c))) = false := by
        cases h : (decide (rchi2Thr < r) ||
            (decide (snrThr ≠ 0) &&
              chanBelowSNR snrThr ok_ichans.length (snrs c)))
        · rfl
        · exact absurd h hcnone
      have h2 := (Bool.or_eq_false_iff.mp hfalse).2
      rw [hdthr, Bool.true_and] at h2
      exact chanBelowSNR_false_sqrt snrThr ok_ichans.length (snrs c) h2
  · have hres : get_channels_to_zap_sub ok_ichans red_chi2 snrs snrThr
        rchi2Thr true =
        zap_snr_loop ok_ichans snrs snrThr (ok_ichans.length + 1)
          (zap_first_pass ok_ichans red_chi2 snrs snrThr rchi2Thr) := by
      unfold get_channels_to_zap_sub
      rw [if_pos ⟨rfl, hthr, hb0⟩]
    have hbnd : (zap_first_pass ok_ichans red_chi2 snrs snrThr rchi2Thr).Nodup :=
      List.Nodup.filter _ hok
    have hbsub : zap_first_pass ok_ichans red_chi2 snrs snrThr rchi2Thr ⊆
        ok_ichans := fun c hc => (List.mem_filter.mp hc).1
    have hfuel : ok_ichans.length -
        (zap_first_pass ok_ichans red_chi2 snrs snrThr rchi2Thr).length <
        ok_ichans.length + 1 := by omega
    obtain ⟨hnd, hsubr, hdisj⟩ :=
      zap_snr_loop_spec ok_ichans snrs snrThr hok (ok_ichans.length + 1)
        (zap_first_pass ok_ichans red_chi2 snrs snrThr rchi2Thr) hbnd hbsub hfuel
    rcases hdisj with hall | hfix
    · left
      intro c hc
      rw [hres]
      have hfsub : (zap_snr_loop ok_ichans snrs snrThr (ok_ichans.length + 1)
          (zap_first_pass ok_ichans red_chi2 snrs snrThr rchi2Thr)).toFinset =
          ok_ichans.toFinset := by
        refine Finset.eq_of_subset_of_card_le ?_ ?_
        · intro x hx
          rw [List.mem_toFinset] at hx ⊢
          exact hsubr hx
        · rw [List.toFinset_card_of_nodup hok, List.toFinset_card_of_nodup hnd,
            hall]
      have : c ∈ ok_ichans.toFinset := List.mem_toFinset.mpr hc
      rw [← hfsub, List.mem_toFinset] at this
      exact this
    · right
      intro c hc hcb
      rw [hres] at hcb ⊢
      exact chanBelowSNR_false_sqrt _ _ _ (hfix c hc hcb)

/-- Per-channel S/N values for the C6 witness: the spec cascade, where
removing the lowest-S/N channel raises the effective threshold enough to
fail the next one, and so on until all are removed. -/
def zapSnrsExample : Nat → ℚ := fun c => if c = 0 then -1 else if c = 1 then 5 else 6

/-- Per-channel reduced chi-squares for the C6 witness: all fine. -/
def zapRchi2Example : Nat → Option ℚ := fun _ => some 1

/-- Witness for C6 at a concrete cascade input (threshold 8, channels
with S/N -1, 5, 6): the hypotheses hold and the theorem applies. -/
theorem C6_zap_iteration_fixed_point_witness :
    ([0, 1, 2] : List Nat).Nodup ∧ (8 : ℚ) ≠ 0 ∧
    ((∀ c ∈ ([0, 1, 2] : List Nat),
        c ∈ get_channels_to_zap_sub [0, 1, 2] zapRchi2Example zapSnrsExample 8
          (13 / 10) true) ∨
      (∀ c ∈ ([0, 1, 2] : List Nat),
        c ∉ get_channels_to_zap_sub [0, 1, 2] zapRchi2Example zapSnrsExample 8
          (13 / 10) true →
        Real.sqrt (((8 : ℚ) : ℝ) ^ 2 /
            ((([0, 1, 2] : List Nat).length -
              (get_channels_to_zap_sub [0, 1, 2] zapRchi2Example zapSnrsExample
                8 (13 / 10) true).length : Nat) : ℝ)) ≤ (zapSnrsExample c : ℝ))) :=
  ⟨by decide, by decide,
   C6_zap_iteration_fixed_point [0, 1, 2] zapRchi2Example zapSnrsExample 8
     (13 / 10) (by decide) (by decide)⟩

end PPtoas
